import Mathlib

/-!
Shallow embedding of the CaseManagementSystem backend core
(src/backend/app/rbac.py, authorization.py, models.py, schemas.py,
services/simplified_case_service.py) and proofs about it.

Python dicts/objects are embedded as Lean structures; status, priority and
role values are the literal strings the source uses; the SQLAlchemy case
table is a `List Case` threaded through the service operations, and a
commit replaces the first record matched by the query predicate.
Timestamps (`created_at`, `due_date`, the marshmallow "due date in the
future" check) are modelled as `Nat` with the current time passed in
explicitly; the `updated_at` housekeeping column is elided as no claim
mentions it.
-/

namespace CMS

/-- Permission enumeration, mirroring `class Permission(Enum)` in rbac.py. -/
inductive Permission where
  | VIEW_ALL_CASES
  | VIEW_OWN_CASES
  | VIEW_ASSIGNED_CASES
  | CREATE_CASE
  | EDIT_OWN_CASES
  | EDIT_ALL_CASES
  | DELETE_OWN_CASES
  | DELETE_ALL_CASES
  | ASSIGN_CASES
  | UPDATE_STATUS_OWN
  | UPDATE_STATUS_ASSIGNED
  | UPDATE_STATUS_ALL
  | MANAGE_USERS
  | VIEW_AUDIT_LOGS
deriving DecidableEq

/-- Role enumeration, mirroring `class Role(Enum)` in rbac.py. -/
inductive Role where
  | ADMIN
  | USER
  | MANAGER
  | VIEWER
deriving DecidableEq

/-- Models `Role(user.role)`: parse the role string, `none` models the
`ValueError` raised on an unrecognized string. -/
def roleOfString (s : String) : Option Role :=
  if s = "admin" then some Role.ADMIN
  else if s = "user" then some Role.USER
  else if s = "manager" then some Role.MANAGER
  else if s = "viewer" then some Role.VIEWER
  else none

/-- Static table `ROLE_PERMISSIONS` of rbac.py, a total function because the
Python dict has an entry for every `Role` member. -/
def ROLE_PERMISSIONS (r : Role) : List Permission :=
  match r with
  | Role.ADMIN =>
      [Permission.VIEW_ALL_CASES, Permission.CREATE_CASE,
       Permission.EDIT_ALL_CASES, Permission.DELETE_ALL_CASES,
       Permission.ASSIGN_CASES, Permission.UPDATE_STATUS_ALL,
       Permission.MANAGE_USERS, Permission.VIEW_AUDIT_LOGS]
  | Role.USER =>
      [Permission.VIEW_OWN_CASES, Permission.VIEW_ASSIGNED_CASES,
       Permission.CREATE_CASE, Permission.EDIT_OWN_CASES,
       Permission.DELETE_OWN_CASES, Permission.UPDATE_STATUS_OWN,
       Permission.UPDATE_STATUS_ASSIGNED]
  | Role.MANAGER =>
      [Permission.VIEW_ALL_CASES, Permission.CREATE_CASE,
       Permission.EDIT_ALL_CASES, Permission.ASSIGN_CASES,
       Permission.UPDATE_STATUS_ALL]
  | Role.VIEWER =>
      [Permission.VIEW_OWN_CASES, Permission.VIEW_ASSIGNED_CASES]

/-- User row (models.py `User`): the fields the authorization core reads. -/
structure User where
  id : Nat
  role : String
  is_active : Bool
deriving DecidableEq

/-- Case row (models.py `Case`): the fields the core reads or writes. -/
structure Case where
  id : Nat
  title : String
  description : String
  status : String
  priority : String
  due_date : Option Nat
  is_active : Bool
  created_at : Nat
  created_by : Nat
  assigned_to : Option Nat
deriving DecidableEq

/-- `Case.VALID_STATUSES` from models.py. -/
def VALID_STATUSES : List String := ["open", "in_progress", "closed"]

/-- `Case.STATUS_TRANSITIONS` from models.py; the final `else` branch models
`dict.get(status, [])` on a key outside the table. -/
def STATUS_TRANSITIONS (s : String) : List String :=
  if s = "open" then ["in_progress"]
  else if s = "in_progress" then ["closed"]
  else if s = "closed" then []
  else []

/-- `Case.can_transition_to` from models.py. -/
def can_transition_to (c : Case) (new_status : String) : Bool :=
  if new_status ∉ VALID_STATUSES then false
  else decide (new_status ∈ STATUS_TRANSITIONS c.status)

/-- `Case.soft_delete` from models.py. -/
def soft_delete (c : Case) : Case := { c with is_active := false }

/-- `RBACManager._check_case_permission` from rbac.py (underscore dropped). -/
def check_case_permission (user : User) (permission : Permission) (c : Case) : Bool :=
  let is_owner := c.created_by == user.id
  let is_assignee := c.assigned_to == some user.id
  if permission = Permission.EDIT_OWN_CASES ∨ permission = Permission.DELETE_OWN_CASES then
    is_owner
  else if permission = Permission.UPDATE_STATUS_OWN then is_owner
  else if permission = Permission.UPDATE_STATUS_ASSIGNED then is_assignee
  else if permission = Permission.VIEW_OWN_CASES then is_owner
  else if permission = Permission.VIEW_ASSIGNED_CASES then is_assignee
  else true

/-- `RBACManager.has_permission` from rbac.py. `user = none` models a null
user, `resource = none` a call without a resource argument. -/
def has_permission (user : Option User) (permission : Permission)
    (resource : Option Case) : Bool :=
  match user with
  | none => false
  | some u =>
    if u.is_active = false then false
    else
      match roleOfString u.role with
      | none => false
      | some user_role =>
        let user_permissions := ROLE_PERMISSIONS user_role
        if permission ∉ user_permissions then false
        else
          match resource with
          | some c => check_case_permission u permission c
          | none => true

/-- `RBACManager.get_user_permissions` from rbac.py. -/
def get_user_permissions (user : Option User) : List Permission :=
  match user with
  | none => []
  | some u =>
    match roleOfString u.role with
    | some r => ROLE_PERMISSIONS r
    | none => []

/-- `authorize_case_access` from authorization.py, returning the
`(bool, error-dict-or-None)` pair as `Bool × Option String`. -/
def authorize_case_access (cs : Option Case) (current_user : User)
    (action : String) : Bool × Option String :=
  if current_user.role == "admin" then (true, none)
  else if action == "create" then (true, none)
  else
    match cs with
    | none => (false, some "Unauthorized access")
    | some c =>
      let is_owner := c.created_by == current_user.id
      let is_assigned := c.assigned_to == some current_user.id
      if action == "read" then
        if !(is_owner || is_assigned) then (false, some "Unauthorized access")
        else (true, none)
      else
        if !is_owner then (false, some "Unauthorized access")
        else if c.status == "closed" then (false, some "Unauthorized access")
        else (true, none)

/-- `get_accessible_cases_query` from authorization.py over a list-modelled
case table. -/
def get_accessible_cases_query (current_user : User) (db : List Case) : List Case :=
  let base_query := db.filter (fun c => c.is_active)
  if current_user.role == "admin" then base_query
  else
    base_query.filter
      (fun c => c.created_by == current_user.id || c.assigned_to == some current_user.id)

/-- Raw case-update payload (schemas.py `CaseUpdateSchema`): every field
optional; for the nullable columns an explicit JSON `null` and an absent key
are both observationally `validated_data.get(...) = None`, so the payload
keeps one `Option` layer for presence and one for the value. -/
structure CaseUpdateData where
  title : Option String
  description : Option String
  status : Option String
  priority : Option String
  due_date : Option (Option Nat)
  assigned_to : Option (Option Nat)
deriving DecidableEq

/-- `validate.Length(min=1, max=200)` on an optional title field. -/
def titleOk : Option String → Bool
  | none => true
  | some t => decide (1 ≤ t.length) && decide (t.length ≤ 200)

/-- `validate.OneOf(['open', 'in_progress', 'closed'])` on an optional field. -/
def statusOk : Option String → Bool
  | none => true
  | some s => decide (s ∈ (["open", "in_progress", "closed"] : List String))

/-- `validate.OneOf(['low', 'medium', 'high'])` on an optional field. -/
def priorityOk : Option String → Bool
  | none => true
  | some p => decide (p ∈ (["low", "medium", "high"] : List String))

/-- The `validate_due_date` validator: a supplied non-null due date must lie
strictly beyond `now` (`value <= now` raises). -/
def dueOk (now : Nat) : Option (Option Nat) → Bool
  | some (some d) => decide (now < d)
  | _ => true

/-- `case_update_schema.load`: `none` models the marshmallow
`ValidationError`; on success the data passes through unchanged. `now` is
the wall-clock instant read by the due-date validator. -/
def case_update_schema_load (now : Nat) (data : CaseUpdateData) : Option CaseUpdateData :=
  if titleOk data.title && statusOk data.status && priorityOk data.priority
     && dueOk now data.due_date then
    some data
  else none

/-- Raw case-creation payload (schemas.py `CaseCreateSchema`). -/
structure CaseCreateData where
  title : Option String
  description : Option String
  priority : Option String
  status : Option String
  due_date : Option (Option Nat)
  assigned_to : Option (Option Nat)
deriving DecidableEq

/-- Creation payload after `case_create_schema.load`: the `missing=` defaults
of schemas.py are applied, so description/priority/status are concrete. -/
structure ValidatedCreate where
  title : String
  description : String
  priority : String
  status : String
  due_date : Option Nat
  assigned_to : Option Nat
deriving DecidableEq

/-- `case_create_schema.load`: title required with length 1..200, priority and
status restricted, the `missing=` defaults filled in, due date in the
future when supplied. -/
def case_create_schema_load (now : Nat) (data : CaseCreateData) : Option ValidatedCreate :=
  match data.title with
  | none => none
  | some t =>
    if titleOk (some t) && statusOk data.status && priorityOk data.priority
       && dueOk now data.due_date then
      some { title := t,
             description := data.description.getD "",
             priority := data.priority.getD "medium",
             status := data.status.getD "open",
             due_date := data.due_date.getD none,
             assigned_to := data.assigned_to.getD none }
    else none

/-- Replace the first list element matching `p` (a SQLAlchemy commit of an
in-session mutation of the row `filter_by(...).first()` returned). -/
def updateFirst (p : Case → Bool) (f : Case → Case) : List Case → List Case
  | [] => []
  | x :: xs => if p x then f x :: xs else x :: updateFirst p f xs

/-- Response bodies of `SimplifiedCaseService.update_case`; the
`invalidTransition` constructor carries the pieces the source formats into
`Invalid status transition from .. to ..` plus the `valid_transitions` key. -/
inductive UpdateBody where
  | notFound
  | validationFailed
  | invalidTransition (fromStatus toStatus : String) (valid_transitions : List String)
  | assignedUserInvalid
  | ok (c : Case)
deriving DecidableEq

/-- The `if 'assigned_to' in validated_data and validated_data['assigned_to']:`
guard of update_case: present and truthy (Python `0` and `None` are falsy)
and then the referenced user must exist and be active. -/
def assigned_to_invalid (vd : CaseUpdateData) (users : List User) : Bool :=
  match vd.assigned_to with
  | some (some uid) =>
    if uid == 0 then false
    else
      match users.find? (fun u => u.id == uid) with
      | none => true
      | some au => !au.is_active
  | _ => false

/-- The `for field in [...]` assignment loop of update_case (status was
already written by the transition branch). -/
def apply_update_fields (vd : CaseUpdateData) (c : Case) : Case :=
  let c := match vd.title with | some t => { c with title := t } | none => c
  let c := match vd.description with | some d => { c with description := d } | none => c
  let c := match vd.priority with | some p => { c with priority := p } | none => c
  let c := match vd.due_date with | some d => { c with due_date := d } | none => c
  let c := match vd.assigned_to with | some a => { c with assigned_to := a } | none => c
  c

/-- Tail of `update_case` after the transition check: the assigned-user
check, the field loop and the commit. `c1` is the in-session case row (status
already updated when the payload carried one). -/
def update_case_rest (vd : CaseUpdateData) (users : List User) (db : List Case)
    (case_id : Nat) (c1 : Case) : (UpdateBody × Nat) × List Case :=
  if assigned_to_invalid vd users then ((UpdateBody.assignedUserInvalid, 400), db)
  else
    let c2 := apply_update_fields vd c1
    ((UpdateBody.ok c2, 200),
     updateFirst (fun c => c.id == case_id && c.is_active) (fun _ => c2) db)

/-- `SimplifiedCaseService.update_case`: returns the `(body, http-code)` pair
and the committed case table (unchanged on every error path, since nothing
is committed there). -/
def update_case (now : Nat) (case_id : Nat) (data : CaseUpdateData)
    (current_user : User) (users : List User) (db : List Case) :
    (UpdateBody × Nat) × List Case :=
  match db.find? (fun c => c.id == case_id && c.is_active) with
  | none => ((UpdateBody.notFound, 404), db)
  | some c0 =>
    match case_update_schema_load now data with
    | none => ((UpdateBody.validationFailed, 400), db)
    | some vd =>
      match vd.status with
      | some new_status =>
        if can_transition_to c0 new_status = false then
          ((UpdateBody.invalidTransition c0.status new_status
              (STATUS_TRANSITIONS c0.status), 400), db)
        else update_case_rest vd users db case_id { c0 with status := new_status }
      | none => update_case_rest vd users db case_id c0

/-- Response bodies of `SimplifiedCaseService.create_case`. -/
inductive CreateBody where
  | validationFailed
  | assignedUserInvalid
  | created (c : Case)
deriving DecidableEq

/-- Build and commit the new case row (tail of create_case): `new_id` models
the autoincrement key and `created_at` the column default. -/
def create_case_insert (vd : ValidatedCreate) (assignee : Option Nat)
    (current_user : User) (db : List Case) (new_id created_at : Nat) :
    (CreateBody × Nat) × List Case :=
  let c : Case :=
    { id := new_id, title := vd.title, description := vd.description,
      status := vd.status, priority := vd.priority, due_date := vd.due_date,
      is_active := true, created_at := created_at,
      created_by := current_user.id, assigned_to := assignee }
  ((CreateBody.created c, 201), db ++ [c])

/-- `SimplifiedCaseService.create_case`. -/
def create_case (now : Nat) (data : CaseCreateData) (current_user : User)
    (users : List User) (db : List Case) (new_id created_at : Nat) :
    (CreateBody × Nat) × List Case :=
  match case_create_schema_load now data with
  | none => ((CreateBody.validationFailed, 400), db)
  | some vd =>
    match vd.assigned_to with
    | some uid =>
      if uid == 0 then
        create_case_insert vd (some current_user.id) current_user db new_id created_at
      else
        match users.find? (fun u => u.id == uid) with
        | none => ((CreateBody.assignedUserInvalid, 400), db)
        | some au =>
          if au.is_active = false then ((CreateBody.assignedUserInvalid, 400), db)
          else create_case_insert vd (some uid) current_user db new_id created_at
    | none =>
      create_case_insert vd (some current_user.id) current_user db new_id created_at

/-- Response bodies of `SimplifiedCaseService.delete_case`. -/
inductive DeleteBody where
  | notFound
  | deleted
deriving DecidableEq

/-- `SimplifiedCaseService.delete_case`: fetch the active row, soft-delete
it, commit. -/
def delete_case (case_id : Nat) (current_user : User) (db : List Case) :
    (DeleteBody × Nat) × List Case :=
  match db.find? (fun c => c.id == case_id && c.is_active) with
  | none => ((DeleteBody.notFound, 404), db)
  | some _ =>
    ((DeleteBody.deleted, 200),
     updateFirst (fun c => c.id == case_id && c.is_active) soft_delete db)

/-- Character lists: `pat` is a leading segment of `s`. -/
def isPre : List Char → List Char → Bool
  | [], _ => true
  | _ :: _, [] => false
  | a :: as, b :: bs => a == b && isPre as bs

/-- Character lists: `pat` occurs contiguously inside `s`. -/
def isSub (pat : List Char) : List Char → Bool
  | [] => pat.isEmpty
  | b :: bs => isPre pat (b :: bs) || isSub pat bs

/-- SQL `field ILIKE '%term%'`: case-insensitive containment. -/
def ilikeContains (field term : String) : Bool :=
  isSub term.toLower.toList field.toLower.toList

/-- Insert into a list kept in descending `created_at` order. -/
def insertDesc (c : Case) : List Case → List Case
  | [] => [c]
  | x :: xs => if x.created_at ≤ c.created_at then c :: x :: xs else x :: insertDesc c xs

/-- `query.order_by(Case.created_at.desc())` as an insertion sort. -/
def sortByCreatedDesc : List Case → List Case
  | [] => []
  | x :: xs => insertDesc x (sortByCreatedDesc xs)

/-- Query-string parameters of `get_cases`; `none` in page/per_page models a
missing or unparseable (`ValueError`) numeric parameter, which the source
replaces by its default. -/
structure QueryParams where
  page : Option Int
  per_page : Option Int
  status : Option String
  priority : Option String
  search : Option String
deriving DecidableEq

/-- The `pagination` object of the `get_cases` response. -/
structure PageInfo where
  page : Nat
  per_page : Nat
  total : Nat
  pages : Nat
  has_next : Bool
  has_prev : Bool
deriving DecidableEq

/-- The success body of `get_cases`. -/
structure CasesPage where
  cases : List Case
  pagination : PageInfo
deriving DecidableEq

/-- The filter chain of `get_cases` after the access-scoping query: the
status, priority and text-search filters in source order. -/
def extra_filters (params : QueryParams) (l : List Case) : List Case :=
  let l := match params.status with
    | some s =>
        if s ∈ (["open", "in_progress", "closed"] : List String) then
          l.filter (fun c => c.status == s)
        else l
    | none => l
  let l := match params.priority with
    | some p =>
        if p ∈ (["low", "medium", "high"] : List String) then
          l.filter (fun c => c.priority == p)
        else l
    | none => l
  let l := match params.search with
    | some s =>
        if s ≠ "" then
          l.filter (fun c => ilikeContains c.title s || ilikeContains c.description s)
        else l
    | none => l
  l

/-- `SimplifiedCaseService.get_cases`: parameter clamping, access scoping,
filters, ordering and flask-sqlalchemy pagination (`error_out=False`:
`pages = ceil(total/per_page)`, `has_next = page < pages`,
`has_prev = page > 1`, out-of-range pages give an empty item list). -/
def get_cases (params : QueryParams) (current_user : User) (db : List Case) :
    CasesPage × Nat :=
  let page : Nat := (max 1 (params.page.getD 1)).toNat
  let per_page : Nat := (min (max 1 (params.per_page.getD 10)) 100).toNat
  let query := get_accessible_cases_query current_user db
  let query := extra_filters params query
  let sorted := sortByCreatedDesc query
  let total := sorted.length
  let pages := (total + per_page - 1) / per_page
  let items := (sorted.drop ((page - 1) * per_page)).take per_page
  ({ cases := items,
     pagination :=
       { page := page, per_page := per_page, total := total, pages := pages,
         has_next := decide (page < pages), has_prev := decide (1 < page) } },
   200)

/-- One audit row as `AuditLogger.log_action` builds it (the request
metadata and timestamp columns are irrelevant to every claim and elided). -/
structure AuditRecord where
  user_id : Option Nat
  action : String
  resource_type : String
  resource_id : Option Nat
  result : String
  details : String
deriving DecidableEq

/-- Observable state of the audit sink: the committed `audit_logs` table and
the local fallback log (the `print` in the `except` branch; the
`logging.FileHandler` line, which never raises, is folded into it). -/
structure AuditState where
  db_records : List AuditRecord
  local_log : List String
deriving DecidableEq

/-- `AuditLogger.log_action`. The outcomes of `db.session.commit()` and
`db.session.rollback()` are inputs: `Except.error` models the call raising.
The result type is `Except String AuditState` so that raising out of
`log_action` itself would be visible as an `Except.error`; the source wraps
the persist in `try/except Exception` and the rollback in a bare
`try/except`, so every branch returns `Except.ok`. -/
def log_action (rec : AuditRecord) (commit_outcome : Except String Unit)
    (rollback_outcome : Except String Unit) (st : AuditState) :
    Except String AuditState :=
  match commit_outcome with
  | Except.ok _ => Except.ok { st with db_records := st.db_records ++ [rec] }
  | Except.error e =>
    let st1 := { st with local_log := st.local_log ++ ["Audit logging failed: " ++ e] }
    match rollback_outcome with
    | Except.ok _ => Except.ok st1
    | Except.error _ => Except.ok st1

/-! Spec-side definitions and concrete fixtures used by the theorems. -/

/-- Modelled on the spec's access rule `accessibleCases(actor)`: admin sees
every active case, anyone else the active cases they own or are assigned.
Stated as one predicate to be compared with the two-step query the source
builds in `get_accessible_cases_query`. -/
def accessibleCasesSpec (u : User) (c : Case) : Bool :=
  c.is_active && (u.role == "admin" || c.created_by == u.id || c.assigned_to == some u.id)

/-- The identity-and-ownership projection of a case row: what C7 asserts the
update operation can never change. -/
def case_key (c : Case) : Nat × Nat := (c.id, c.created_by)

/-- A whole sequence of `update_case` calls, each op being
`(case_id, payload, actor)`, run left to right over the case table. -/
def apply_update_calls (now : Nat) (users : List User)
    (ops : List (Nat × CaseUpdateData × User)) (db : List Case) : List Case :=
  ops.foldl (fun d op => (update_case now op.1 op.2.1 op.2.2 users d).2) db

def user2 : User := { id := 2, role := "user", is_active := true }

def user3 : User := { id := 3, role := "user", is_active := true }

def admin1 : User := { id := 1, role := "admin", is_active := true }

def inactiveAdmin : User := { id := 7, role := "admin", is_active := false }

/-- An open case owned by user 2 and assigned to user 3 (the spec's running
scenario). -/
def openCase : Case :=
  { id := 10, title := "t", description := "d", status := "open",
    priority := "medium", due_date := none, is_active := true, created_at := 5,
    created_by := 2, assigned_to := some 3 }

def closedCase : Case := { openCase with id := 11, status := "closed" }

/-- Update payload requesting a direct transition to `closed`. -/
def closePayload : CaseUpdateData :=
  { title := none, description := none, status := some "closed",
    priority := none, due_date := none, assigned_to := none }

/-- Creation payload that supplies `status = "open"` explicitly. -/
def createPayloadOpen : CaseCreateData :=
  { title := some "hello", description := none, priority := none,
    status := some "open", due_date := none, assigned_to := none }

/-- Creation payload that supplies `status = "closed"` explicitly. -/
def createPayloadClosed : CaseCreateData :=
  { createPayloadOpen with status := some "closed" }

/-- The row `create_case` commits for `createPayloadOpen` issued by user 2
into an empty table with id 1 at time 0. -/
def createdOpenCase : Case :=
  { id := 1, title := "hello", description := "", status := "open",
    priority := "medium", due_date := none, is_active := true, created_at := 0,
    created_by := 2, assigned_to := some 2 }

/-! Theorems. -/

/-- Claim C4: `can_transition_to` returns true exactly on the two legal steps
open→in_progress and in_progress→closed; hence open→closed is false, closed
is terminal, and no status transitions to itself. -/
theorem claim_C4_transition_table (c : Case) (t : String) :
    can_transition_to c t = true ↔
      ((c.status = "open" ∧ t = "in_progress") ∨
       (c.status = "in_progress" ∧ t = "closed")) := by
  unfold can_transition_to
  split_ifs with hmem
  · rw [decide_eq_true_iff]
    unfold STATUS_TRANSITIONS
    split_ifs with h1 h2 h3 <;> simp_all
  · refine iff_of_false (by simp) ?_
    rintro (⟨h1, h2⟩ | ⟨h1, h2⟩) <;> subst h2 <;>
      exact hmem (by simp [VALID_STATUSES])

/-- Claim C9: `log_action` never raises to its caller: whatever the outcomes
of the database commit and of the rollback, every branch returns
`Except.ok`, so an audit-persistence failure cannot propagate to the primary
operation. -/
theorem claim_C9_log_action_never_raises (rec : AuditRecord)
    (commit_outcome rollback_outcome : Except String Unit) (st : AuditState) :
    ∃ st2, log_action rec commit_outcome rollback_outcome st = Except.ok st2 := by
  unfold log_action
  cases commit_outcome with
  | ok _ => exact ⟨_, rfl⟩
  | error e =>
    cases rollback_outcome with
    | ok _ => exact ⟨_, rfl⟩
    | error _ => exact ⟨_, rfl⟩

/-- Claim C1, counterexample: the claim says an inactive actor is denied by
`authorize_case_access` for every action regardless of role, but the
function never reads the active flag: an inactive admin requesting `read`
is authorized. -/
theorem claim_C1_counterexample :
    inactiveAdmin.is_active = false ∧
    (authorize_case_access (some openCase) inactiveAdmin "read").1 = true := by
  exact ⟨rfl, rfl⟩

/-- Claim C1 as amended: every inactive (or null) actor is denied by
`has_permission` for every permission and every optional resource;
`authorize_case_access` itself does not consult the active flag (the
authentication layer rejects inactive actors before it runs). -/
theorem claim_C1_inactive_denied (u : User) (p : Permission) (r : Option Case)
    (h : u.is_active = false) :
    has_permission (some u) p r = false ∧ has_permission none p r = false := by
  constructor
  · simp [has_permission, h]
  · rfl

/-- Witness for claim C1's amended theorem at a concrete inactive admin. -/
theorem claim_C1_witness :
    inactiveAdmin.is_active = false ∧
    has_permission (some inactiveAdmin) Permission.VIEW_ALL_CASES none = false :=
  ⟨rfl, (claim_C1_inactive_denied inactiveAdmin Permission.VIEW_ALL_CASES none rfl).1⟩

/-- Claim C2: the coarse action rule. An admin is authorized for every action
(closed cases included); for a non-admin, `read` is authorized exactly for
the owner or the assignee, and `write`/`delete` are authorized exactly for
the owner of a non-closed case — mere assignment never grants them. -/
theorem claim_C2_authorize_actions (c : Case) (u : User) :
    (u.role = "admin" → ∀ action : String,
      (authorize_case_access (some c) u action).1 = true) ∧
    (u.role ≠ "admin" →
      ((authorize_case_access (some c) u "read").1 = true ↔
        (c.created_by = u.id ∨ c.assigned_to = some u.id)) ∧
      (∀ action : String, action = "write" ∨ action = "delete" →
        ((authorize_case_access (some c) u action).1 = true ↔
          (c.created_by = u.id ∧ c.status ≠ "closed")))) := by
  constructor
  · intro h action
    simp [authorize_case_access, h]
  · intro h
    have hadm : (u.role == "admin") = false := by
      simp only [beq_eq_false_iff_ne, ne_eq]
      exact h
    constructor
    · simp only [authorize_case_access, hadm]
      by_cases how : c.created_by = u.id <;> by_cases has : c.assigned_to = some u.id <;>
        simp [how, has]
    · rintro action (rfl | rfl) <;>
        · simp only [authorize_case_access, hadm]
          by_cases how : c.created_by = u.id <;>
            by_cases hcl : c.status = "closed" <;> simp [how, hcl]

/-- Witness for claim C2: an admin may `write` a closed case; its owner
(user 2, non-admin) is denied `write` on it; the mere assignee (user 3) is
denied `write` on the open case but may `read` it. -/
theorem claim_C2_witness :
    (authorize_case_access (some closedCase) admin1 "write").1 = true ∧
    (authorize_case_access (some closedCase) user2 "write").1 = false ∧
    (authorize_case_access (some openCase) user3 "write").1 = false ∧
    (authorize_case_access (some openCase) user3 "read").1 = true := by
  refine ⟨?_, ?_, ?_, ?_⟩
  · exact (claim_C2_authorize_actions closedCase admin1).1 rfl "write"
  · have h := ((claim_C2_authorize_actions closedCase user2).2 (by decide)).2
      "write" (Or.inl rfl)
    have hne : ¬(closedCase.created_by = user2.id ∧ closedCase.status ≠ "closed") := by
      decide
    cases hres : (authorize_case_access (some closedCase) user2 "write").1
    · rfl
    · exact absurd (h.mp hres) hne
  · have h := ((claim_C2_authorize_actions openCase user3).2 (by decide)).2
      "write" (Or.inl rfl)
    have hne : ¬(openCase.created_by = user3.id ∧ openCase.status ≠ "closed") := by
      decide
    cases hres : (authorize_case_access (some openCase) user3 "write").1
    · rfl
    · exact absurd (h.mp hres) hne
  · exact (((claim_C2_authorize_actions openCase user3).2 (by decide)).1).mpr
      (Or.inr (by decide))

/-- Claim C3: with no resource supplied, `has_permission` for an active actor
with a recognized role is exactly membership in the static table for that
role; an unrecognized role string fails closed for every permission, its
permission list is empty, and the null user's permission list is empty. -/
theorem claim_C3_role_table (u : User) (r : Role) (p : Permission) :
    (roleOfString u.role = some r → u.is_active = true →
      (has_permission (some u) p none = true ↔ p ∈ ROLE_PERMISSIONS r)) ∧
    (roleOfString u.role = none →
      has_permission (some u) p none = false ∧ get_user_permissions (some u) = []) ∧
    get_user_permissions none = [] := by
  refine ⟨?_, ?_, rfl⟩
  · intro hr hact
    simp [has_permission, hact, hr]
  · intro hr
    constructor
    · simp [has_permission, hr]
    · simp [get_user_permissions, hr]

/-- Witness for claim C3: an active plain user has `CREATE_CASE` but not
`VIEW_ALL_CASES`; an actor with an unrecognized role string gets nothing. -/
theorem claim_C3_witness :
    has_permission (some user2) Permission.CREATE_CASE none = true ∧
    has_permission (some user2) Permission.VIEW_ALL_CASES none = false ∧
    has_permission (some { id := 8, role := "ghost", is_active := true })
      Permission.CREATE_CASE none = false := by
  refine ⟨?_, ?_, ?_⟩
  · exact ((claim_C3_role_table user2 Role.USER Permission.CREATE_CASE).1
      (by decide) rfl).mpr (by decide)
  · have h := (claim_C3_role_table user2 Role.USER Permission.VIEW_ALL_CASES).1
      (by decide) rfl
    cases hres : has_permission (some user2) Permission.VIEW_ALL_CASES none
    · rfl
    · exact absurd (h.mp hres) (by decide)
  · exact ((claim_C3_role_table
      { id := 8, role := "ghost", is_active := true } Role.USER
      Permission.CREATE_CASE).2.1 (by decide)).1

/-- Claim C5: when the validated payload carries a status that is not a legal
next status of the found case's current status, `update_case` answers 400
with a body carrying the offending from/to pair and the legal next states,
and commits nothing: the case table is returned unchanged. -/
theorem claim_C5_illegal_transition_rejected (now case_id : Nat)
    (data : CaseUpdateData) (cu : User) (users : List User) (db : List Case)
    (c : Case) (ns : String)
    (hfind : db.find? (fun x => x.id == case_id && x.is_active) = some c)
    (hload : case_update_schema_load now data = some data)
    (hstat : data.status = some ns)
    (hbad : can_transition_to c ns = false) :
    update_case now case_id data cu users db =
      ((UpdateBody.invalidTransition c.status ns (STATUS_TRANSITIONS c.status), 400),
       db) := by
  unfold update_case
  simp only [hfind, hload, hstat, hbad, if_true]

/-- Witness for claim C5, the spec's scenario: user 2 asks to close their
open case directly; rejected naming open→closed with legal next states
`[in_progress]`, table unchanged. -/
theorem claim_C5_witness :
    update_case 0 10 closePayload user2 [] [openCase] =
      ((UpdateBody.invalidTransition "open" "closed" ["in_progress"], 400),
       [openCase]) := by
  exact claim_C5_illegal_transition_rejected 0 10 closePayload user2 []
    [openCase] openCase "closed" (by decide) (by decide) rfl (by decide)

/-- `apply_update_fields` never touches the id or the creator column. -/
theorem case_key_apply_update_fields (vd : CaseUpdateData) (c : Case) :
    case_key (apply_update_fields vd c) = case_key c := by
  rcases vd with ⟨t, d, s, p, dd, a⟩
  unfold apply_update_fields case_key
  cases t <;> cases d <;> cases p <;> cases dd <;> cases a <;> rfl

/-- Replacing the first match of `p` by a row with the same key leaves the
key column of the table unchanged. -/
theorem map_case_key_updateFirst (p : Case → Bool) (c2 : Case) (l : List Case)
    (c0 : Case) (hfind : l.find? p = some c0) (hk : case_key c2 = case_key c0) :
    (updateFirst p (fun _ => c2) l).map case_key = l.map case_key := by
  induction l with
  | nil => simp at hfind
  | cons x xs ih =>
    by_cases hx : p x = true
    · rw [List.find?_cons_of_pos _ hx, Option.some.injEq] at hfind
      subst hfind
      simp [updateFirst, hx, hk]
    · rw [List.find?_cons_of_neg _ hx] at hfind
      simp [updateFirst, hx, ih hfind]

/-- One `update_case` call preserves `(id, created_by)` of every row. -/
theorem update_case_map_case_key (now case_id : Nat) (data : CaseUpdateData)
    (cu : User) (users : List User) (db : List Case) :
    ((update_case now case_id data cu users db).2).map case_key =
      db.map case_key := by
  have hrest : ∀ (c0 c1 : Case) (vd : CaseUpdateData),
      db.find? (fun c => c.id == case_id && c.is_active) = some c0 →
      case_key c1 = case_key c0 →
      ((update_case_rest vd users db case_id c1).2).map case_key =
        db.map case_key := by
    intro c0 c1 vd hfind hk
    unfold update_case_rest
    by_cases hai : assigned_to_invalid vd users = true
    · simp [hai]
    · simp only [hai, Bool.false_eq_true, if_false]
      exact map_case_key_updateFirst _ _ _ _ hfind
        ((case_key_apply_update_fields vd c1).trans hk)
  cases hfind : db.find? (fun c => c.id == case_id && c.is_active) with
  | none => simp [update_case, hfind]
  | some c0 =>
    cases hload : case_update_schema_load now data with
    | none => simp [update_case, hfind, hload]
    | some vd =>
      cases hstat : vd.status with
      | none =>
        simp only [update_case, hfind, hload, hstat]
        exact hrest c0 c0 vd hfind rfl
      | some ns =>
        by_cases htr : can_transition_to c0 ns = false
        · simp [update_case, hfind, hload, hstat, htr]
        · simp only [update_case, hfind, hload, hstat, htr, Bool.false_eq_true,
            if_false]
          exact hrest c0 _ vd hfind rfl

/-- Claim C7: `created_by` is immutable: any sequence of `update_case` calls,
with any payloads and any actors, leaves the `(id, created_by)` column of
the case table exactly as it was. -/
theorem claim_C7_created_by_immutable (now : Nat) (users : List User)
    (ops : List (Nat × CaseUpdateData × User)) (db : List Case) :
    (apply_update_calls now users ops db).map case_key = db.map case_key := by
  induction ops generalizing db with
  | nil => rfl
  | cons op rest ih =>
    calc (apply_update_calls now users (op :: rest) db).map case_key
        = (apply_update_calls now users rest
            ((update_case now op.1 op.2.1 op.2.2 users db).2)).map case_key := rfl
      _ = ((update_case now op.1 op.2.1 op.2.2 users db).2).map case_key := ih _
      _ = db.map case_key := update_case_map_case_key now op.1 op.2.1 op.2.2 users db

/-- `updateFirst` preserves the number of rows: a soft delete never
physically removes a record. -/
theorem length_updateFirst (p : Case → Bool) (f : Case → Case) (l : List Case) :
    (updateFirst p f l).length = l.length := by
  induction l with
  | nil => rfl
  | cons x xs ih =>
    unfold updateFirst
    by_cases hx : p x = true <;> simp [hx, ih]

/-- After soft-deleting the found row of a table with pairwise-distinct ids,
every row carrying the requested id is inactive. -/
theorem updateFirst_soft_delete_inactive (case_id : Nat) (db : List Case)
    (c : Case) (huniq : db.Pairwise (fun a b => a.id ≠ b.id))
    (hfind : db.find? (fun x => x.id == case_id && x.is_active) = some c) :
    ∀ x ∈ updateFirst (fun x => x.id == case_id && x.is_active) soft_delete db,
      x.id = case_id → x.is_active = false := by
  induction db with
  | nil => simp at hfind
  | cons y ys ih =>
    rw [List.pairwise_cons] at huniq
    obtain ⟨hy, hys⟩ := huniq
    by_cases hp : (y.id == case_id && y.is_active) = true
    · intro x hx hid
      simp only [updateFirst, hp, if_true] at hx
      rcases List.mem_cons.mp hx with rfl | hxs
      · rfl
      · have hp2 : y.id = case_id ∧ y.is_active = true := by simpa using hp
        exact absurd (hp2.1.trans hid.symm) (hy x hxs)
    · rw [Bool.not_eq_true] at hp
      simp only [List.find?, hp] at hfind
      intro x hx hid
      simp only [updateFirst, hp, Bool.false_eq_true, if_false] at hx
      rcases List.mem_cons.mp hx with rfl | hxs
      · by_cases hact : x.is_active = true
        · have : (x.id == case_id && x.is_active) = true := by simp [hid, hact]
          rw [this] at hp
          cases hp
        · exact Bool.eq_false_iff.mpr hact
      · exact ih hys hfind x hxs hid

/-- After soft-deleting the found row, a row with the requested id is still
present, now inactive. -/
theorem updateFirst_soft_delete_mem (case_id : Nat) (db : List Case) (c : Case)
    (hfind : db.find? (fun x => x.id == case_id && x.is_active) = some c) :
    ∃ x ∈ updateFirst (fun x => x.id == case_id && x.is_active) soft_delete db,
      x.id = case_id ∧ x.is_active = false := by
  induction db with
  | nil => simp at hfind
  | cons y ys ih =>
    by_cases hp : (y.id == case_id && y.is_active) = true
    · refine ⟨soft_delete y, ?_, ?_, rfl⟩
      · simp only [updateFirst, hp, if_true]
        exact List.mem_cons_self _ _
      · have hp2 : y.id = case_id ∧ y.is_active = true := by simpa using hp
        exact hp2.1
    · rw [Bool.not_eq_true] at hp
      simp only [List.find?, hp] at hfind
      obtain ⟨x, hx, hxprop⟩ := ih hfind
      refine ⟨x, ?_, hxprop⟩
      simp only [updateFirst, hp, Bool.false_eq_true, if_false]
      exact List.mem_cons_of_mem _ hx

/-- Claim C8: on a table with pairwise-distinct ids holding an active case
with the requested id, `delete_case` soft-deletes: it answers 200, keeps the
row count, leaves an inactive row with that id, and a second `delete_case`
on the same id answers 404 (NotFound) leaving the table exactly as the
first call left it. -/
theorem claim_C8_soft_delete_idempotent (case_id : Nat) (u1 u2 : User)
    (db : List Case) (c : Case)
    (huniq : db.Pairwise (fun a b => a.id ≠ b.id))
    (hfind : db.find? (fun x => x.id == case_id && x.is_active) = some c) :
    (delete_case case_id u1 db).1 = (DeleteBody.deleted, 200) ∧
    ((delete_case case_id u1 db).2).length = db.length ∧
    (∃ x ∈ (delete_case case_id u1 db).2, x.id = case_id ∧ x.is_active = false) ∧
    delete_case case_id u2 ((delete_case case_id u1 db).2) =
      ((DeleteBody.notFound, 404), (delete_case case_id u1 db).2) := by
  have hdel : delete_case case_id u1 db =
      ((DeleteBody.deleted, 200),
       updateFirst (fun x => x.id == case_id && x.is_active) soft_delete db) := by
    unfold delete_case
    rw [hfind]
  rw [hdel]
  have hinact := updateFirst_soft_delete_inactive case_id db c huniq hfind
  have hnone :
      (updateFirst (fun x => x.id == case_id && x.is_active) soft_delete db).find?
        (fun x => x.id == case_id && x.is_active) = none := by
    rw [List.find?_eq_none]
    intro x hx hcontra
    have h2 : x.id = case_id ∧ x.is_active = true := by simpa using hcontra
    have hfalse := hinact x hx h2.1
    rw [hfalse] at h2
    cases h2.2
  refine ⟨rfl, length_updateFirst _ _ _,
    updateFirst_soft_delete_mem case_id db c hfind, ?_⟩
  unfold delete_case
  rw [hnone]

/-- Witness for claim C8 at a one-row table: deleting case 10 succeeds and a
second delete reports NotFound without changing the table. -/
theorem claim_C8_witness :
    (delete_case 10 user2 [openCase]).1 = (DeleteBody.deleted, 200) ∧
    delete_case 10 user3 ((delete_case 10 user2 [openCase]).2) =
      ((DeleteBody.notFound, 404), (delete_case 10 user2 [openCase]).2) := by
  have h := claim_C8_soft_delete_idempotent 10 user2 user3 [openCase] openCase
    (by simp) (by decide)
  exact ⟨h.1, h.2.2.2⟩

/-- Inserting into the descending sort adds one row. -/
theorem length_insertDesc (c : Case) (l : List Case) :
    (insertDesc c l).length = l.length + 1 := by
  induction l with
  | nil => rfl
  | cons x xs ih =>
    unfold insertDesc
    by_cases h : x.created_at ≤ c.created_at <;> simp [h, ih]

/-- Ordering the result set does not change its size. -/
theorem length_sortByCreatedDesc (l : List Case) :
    (sortByCreatedDesc l).length = l.length := by
  induction l with
  | nil => rfl
  | cons x xs ih => simp [sortByCreatedDesc, length_insertDesc, ih]

/-- Membership in the descending insertion. -/
theorem mem_insertDesc {a c : Case} {l : List Case} :
    a ∈ insertDesc c l ↔ a = c ∨ a ∈ l := by
  induction l with
  | nil => simp [insertDesc]
  | cons x xs ih =>
    unfold insertDesc
    by_cases h : x.created_at ≤ c.created_at
    · simp [h]
    · simp [h, ih]
      tauto

/-- Ordering the result set does not change its members. -/
theorem mem_sortByCreatedDesc {a : Case} {l : List Case} :
    a ∈ sortByCreatedDesc l ↔ a ∈ l := by
  induction l with
  | nil => exact Iff.rfl
  | cons x xs ih =>
    simp [sortByCreatedDesc, mem_insertDesc, ih]

/-- The two-step query the source builds (active-only base query, then the
ownership filter unless admin) equals one pass of the spec's access
predicate. -/
theorem get_accessible_cases_query_eq (u : User) (db : List Case) :
    get_accessible_cases_query u db = db.filter (accessibleCasesSpec u) := by
  by_cases hadm : (u.role == "admin") = true
  · simp only [get_accessible_cases_query, hadm, if_true]
    exact List.filter_congr (fun c _ => by simp [accessibleCasesSpec, hadm])
  · have hadm2 : (u.role == "admin") = false := by simpa using hadm
    simp only [get_accessible_cases_query, hadm2, Bool.false_eq_true, if_false,
      List.filter_filter]
    exact List.filter_congr (fun c _ => by
      simp only [accessibleCasesSpec, hadm2, Bool.false_or]
      exact Bool.and_comm _ _)

/-- Claim C6: the scoping query returns exactly the active cases for an
admin and the active owned-or-assigned cases otherwise (one predicate), and
`get_cases` applies that scoping before the status/priority/search filters
and before pagination: the page's rows all satisfy scope-plus-filters, and
total/has_next/has_prev are computed from the scoped, filtered set only. -/
theorem claim_C6_scoping_before_filters (params : QueryParams) (u : User)
    (db : List Case) :
    get_accessible_cases_query u db = db.filter (accessibleCasesSpec u) ∧
    (get_cases params u db).1.pagination.total =
      (extra_filters params (db.filter (accessibleCasesSpec u))).length ∧
    (∀ c ∈ (get_cases params u db).1.cases,
      c ∈ extra_filters params (db.filter (accessibleCasesSpec u))) ∧
    (get_cases params u db).1.pagination.has_next =
      decide ((get_cases params u db).1.pagination.page <
        ((extra_filters params (db.filter (accessibleCasesSpec u))).length +
          (get_cases params u db).1.pagination.per_page - 1) /
          (get_cases params u db).1.pagination.per_page) ∧
    (get_cases params u db).1.pagination.has_prev =
      decide (1 < (get_cases params u db).1.pagination.page) := by
  have hq := get_accessible_cases_query_eq u db
  refine ⟨hq, ?_, ?_, ?_, ?_⟩
  · simp [get_cases, hq, length_sortByCreatedDesc]
  · intro c hc
    simp only [get_cases, hq] at hc
    exact mem_sortByCreatedDesc.mp
      (List.mem_of_mem_drop (List.mem_of_mem_take hc))
  · simp [get_cases, hq, length_sortByCreatedDesc]
  · simp [get_cases]

/-- Claim C10, counterexample: the claim says the created status is `open`
only when the payload omits the status field, but a payload that supplies
`status = "open"` explicitly also yields an open case. -/
theorem claim_C10_counterexample :
    createPayloadOpen.status = some "open" ∧
    create_case 0 createPayloadOpen user2 [] [] 1 0 =
      ((CreateBody.created createdOpenCase, 201), [createdOpenCase]) ∧
    createdOpenCase.status = "open" :=
  ⟨rfl, rfl, rfl⟩

/-- Claim C10 as amended: `create_case` accepts any client-supplied initial
status among open/in_progress/closed and stores it with no state-machine
transition; the created status equals the validated payload status, whose
default is `open`: it is `open` exactly when the payload omitted the field
or supplied `"open"` explicitly. -/
theorem claim_C10_create_status (now : Nat) (d : CaseCreateData) (u : User)
    (users : List User) (db : List Case) (nid cat : Nat) (vd : ValidatedCreate)
    (hload : case_create_schema_load now d = some vd)
    (hassign : d.assigned_to = none) :
    ∃ c : Case,
      create_case now d u users db nid cat =
        ((CreateBody.created c, 201), db ++ [c]) ∧
      c.status = vd.status ∧
      (c.status = "open" ↔ (d.status = none ∨ d.status = some "open")) := by
  cases ht : d.title with
  | none =>
    simp only [case_create_schema_load, ht] at hload
    exact Option.noConfusion hload
  | some t =>
    simp only [case_create_schema_load, ht] at hload
    by_cases hok : (titleOk (some t) && statusOk d.status && priorityOk d.priority
        && dueOk now d.due_date) = true
    · rw [if_pos hok] at hload
      have hload2 : case_create_schema_load now d =
          some { title := t, description := d.description.getD "",
                 priority := d.priority.getD "medium",
                 status := d.status.getD "open",
                 due_date := d.due_date.getD none,
                 assigned_to := d.assigned_to.getD none } := by
        simp only [case_create_schema_load, ht]
        rw [if_pos hok]
      have hvd := Option.some.inj hload
      refine ⟨{ id := nid, title := t, description := d.description.getD "",
                status := d.status.getD "open",
                priority := d.priority.getD "medium",
                due_date := d.due_date.getD none, is_active := true,
                created_at := cat, created_by := u.id,
                assigned_to := some u.id }, ?_, ?_, ?_⟩
      · simp [create_case, hload2, hassign, create_case_insert]
      · rw [← hvd]
      · cases hstat : d.status <;> simp [hstat]
    · rw [if_neg hok] at hload
      cases hload

/-- Witness for claim C10's amended theorem: a payload carrying
`status = "closed"` creates a case that is born closed, with no
transition ever taken. -/
theorem claim_C10_witness :
    ∃ c : Case,
      create_case 0 createPayloadClosed user2 [] [] 1 0 =
        ((CreateBody.created c, 201), [] ++ [c]) ∧ c.status = "closed" := by
  obtain ⟨c, h1, h2, h3⟩ := claim_C10_create_status 0 createPayloadClosed user2
    [] [] 1 0
    { title := "hello", description := "", priority := "medium",
      status := "closed", due_date := none, assigned_to := none }
    (by decide) rfl
  exact ⟨c, h1, h2⟩

end CMS
